import Mathlib

/-!
Shallow embedding of the provider adapter layer of the rp-companion
backend (src/server.js, revision v1.2.2g): the request builder
buildProviderConfig, the response extractor inside callApi, the draft
transcript composer, and the key-selection logic of the two endpoints.

JavaScript conventions are modelled explicitly:
* a field that may be absent or null is an Option String; an absent or
  empty string is falsy (truthy below);
* the JS expression a or-else b on such values is jsOr;
* roles are plain strings, as in the source.
-/

namespace RPCompanion

/-- A chat message as the server receives it: a role tag and a content
string, both plain strings as in the JavaScript source. -/
structure Message where
  role : String
  content : String
deriving Repr, DecidableEq

/-- JavaScript truthiness restricted to the string-or-missing values the
server manipulates: null/undefined and the empty string are falsy. -/
def truthy : Option String → Bool
  | some s => s ≠ ""
  | none => false

/-- The JavaScript expression a or-else-b on string-or-missing values:
the left operand when truthy, otherwise the right operand. -/
def jsOr (a b : Option String) : Option String :=
  if truthy a then a else b

/-- Server-side environment configuration: one optional API key per
provider, mirroring process.env reads in buildProviderConfig. -/
structure Env where
  MANCER_API_KEY : Option String
  OPENROUTER_API_KEY : Option String
  OPENAI_API_KEY : Option String
  ANTHROPIC_API_KEY : Option String
deriving Repr, DecidableEq

/-- The outbound request body. The JavaScript code builds a dynamic
object per provider; optional fields model keys that only some branches
set (temperature and enable_thinking for mancer, system for anthropic). -/
structure Body where
  model : String
  messages : List Message
  temperature : Option ℚ := none
  max_tokens : Nat := 0
  enable_thinking : Option Bool := none
  system : Option String := none
deriving Repr, DecidableEq

/-- The value returned by buildProviderConfig: endpoint URL, header list
and request body. -/
structure ProviderConfig where
  apiUrl : String
  headers : List (String × String)
  body : Body
deriving Repr, DecidableEq

/-- Mancer branch of buildProviderConfig, reversed view: append the
/nothink marker to the first user message of the reversed list. The
source computes the same position with reverse().findIndex(role=user)
and index arithmetic. -/
def appendNothinkRev : List Message → List Message
  | [] => []
  | m :: rest =>
    if m.role == "user" then
      { m with content := m.content ++ "\n/nothink" } :: rest
    else
      m :: appendNothinkRev rest

/-- Mancer branch of buildProviderConfig: the message list with the
literal marker appended to the content of the last user-role message
(the list is unchanged when no user message exists). -/
def mancerMessages (messages : List Message) : List Message :=
  (appendNothinkRev messages.reverse).reverse

/-- Anthropic branch: the loop body that merges consecutive same-role
messages, carrying the message being accumulated. A same-role successor
is concatenated onto it with a blank-line separator, as in the source. -/
def sanLoop (cur : Message) : List Message → List Message
  | [] => [cur]
  | m :: rest =>
    if cur.role == m.role then
      sanLoop { role := cur.role, content := cur.content ++ "\n\n" ++ m.content } rest
    else
      cur :: sanLoop m rest

/-- Anthropic branch: merge consecutive same-role messages of the list
(the sanitised array of the source). -/
def sanitise : List Message → List Message
  | [] => []
  | m :: rest => sanLoop { role := m.role, content := m.content } rest

/-- Anthropic branch: the systemMsg variable after the filter ran — it
is overwritten by each system-role message in order, so the last one
wins, and the empty string remains when there is none. -/
def anthropicSystemMsg (messages : List Message) : String :=
  messages.foldl (fun acc m => if m.role == "system" then m.content else acc) ""

/-- Anthropic branch: the message list with system-role messages
filtered out (the apiMsgs array of the source). -/
def anthropicApiMsgs (messages : List Message) : List Message :=
  messages.filter (fun m => !(m.role == "system"))

/-- Anthropic branch: append a minimal user continuation prompt when the
sanitised conversation ends with an assistant message. -/
def anthropicFixEnd (l : List Message) : List Message :=
  match l.getLast? with
  | some lastM =>
    if lastM.role == "assistant" then l ++ [{ role := "user", content := "Please continue." }]
    else l
  | none => l

/-- Anthropic branch: ensure at least one user message when the
sanitised list came out empty. -/
def anthropicFixEmpty (l : List Message) : List Message :=
  if l.isEmpty then [{ role := "user", content := "Begin." }] else l

/-- Anthropic branch: the full normalization pipeline producing the
messages field of the anthropic request body. -/
def anthropicMessages (messages : List Message) : List Message :=
  anthropicFixEmpty (anthropicFixEnd (sanitise (anthropicApiMsgs messages)))

/-- buildProviderConfig of src/server.js: four provider branches, each
resolving the API key as userApiKey or-else the server env key, failing
with the branch configuration message when neither is truthy, and
otherwise returning the provider-specific URL, headers and body. -/
def buildProviderConfig (provider model : String) (messages : List Message)
    (userApiKey : Option String) (env : Env) : Except String ProviderConfig :=
  if provider == "mancer" then
    let apiKey := jsOr userApiKey env.MANCER_API_KEY
    if truthy apiKey then
      .ok { apiUrl := "https://neuro.mancer.tech/oai/v1/chat/completions"
            headers := [("Content-Type", "application/json"), ("X-API-KEY", apiKey.getD "")]
            body := { model := model, messages := mancerMessages messages,
                      temperature := some (7 / 10 : ℚ), max_tokens := 2048,
                      enable_thinking := some false } }
    else
      .error "Mancer API Key not configured. Add MANCER_API_KEY to Railway env vars or provide your own key."
  else if provider == "openrouter" then
    let apiKey := jsOr userApiKey env.OPENROUTER_API_KEY
    if truthy apiKey then
      .ok { apiUrl := "https://openrouter.ai/api/v1/chat/completions"
            headers := [("Content-Type", "application/json"),
                        ("Authorization", "Bearer " ++ apiKey.getD ""),
                        ("HTTP-Referer", "https://rp-companion.up.railway.app"),
                        ("X-Title", "RP Companion")]
            body := { model := model, messages := messages, max_tokens := 1024 } }
    else
      .error "OpenRouter API Key not configured. Add OPENROUTER_API_KEY to Railway env vars or provide your own key."
  else if provider == "openai" then
    let apiKey := jsOr userApiKey env.OPENAI_API_KEY
    if truthy apiKey then
      .ok { apiUrl := "https://api.openai.com/v1/chat/completions"
            headers := [("Content-Type", "application/json"),
                        ("Authorization", "Bearer " ++ apiKey.getD "")]
            body := { model := model, messages := messages, max_tokens := 1024 } }
    else
      .error "OpenAI API Key not configured. Add OPENAI_API_KEY to Railway env vars or provide your own key."
  else if provider == "anthropic" then
    let apiKey := jsOr userApiKey env.ANTHROPIC_API_KEY
    if truthy apiKey then
      .ok { apiUrl := "https://api.anthropic.com/v1/messages"
            headers := [("Content-Type", "application/json"),
                        ("x-api-key", apiKey.getD ""),
                        ("anthropic-version", "2023-06-01")]
            body := { model := model, messages := anthropicMessages messages,
                      max_tokens := 1024,
                      system := some (anthropicSystemMsg messages) } }
    else
      .error "Anthropic API Key not configured. Add ANTHROPIC_API_KEY to Railway env vars or provide your own key."
  else
    .error ("Unknown provider: " ++ provider)

/-- One item of an anthropic response content array, keeping the single
field the extractor reads. -/
structure ContentItem where
  text : Option String := none
deriving Repr, DecidableEq

/-- The message object inside choices[0] of an OpenAI-shaped response,
keeping the three fields the extractor reads. -/
structure RespMessage where
  content : Option String := none
  text : Option String := none
  reasoning_content : Option String := none
deriving Repr, DecidableEq

/-- One item of the choices array of an OpenAI-shaped response. -/
structure Choice where
  message : Option RespMessage := none
deriving Repr, DecidableEq

/-- The error field of a provider response body: in JavaScript it may be
a plain string or an object; the object form carries the message field
the code reads and the metadata.raw field some providers send. -/
inductive ErrorField
  | strVal (s : String)
  | objVal (message : Option String) (metadata_raw : Option String)
deriving Repr, DecidableEq

/-- The parsed provider response body, keeping every field callApi
reads, plus the top-level fields a provider may populate. -/
structure ResponseData where
  error : Option ErrorField := none
  message : Option String := none
  content : Option (List ContentItem) := none
  choices : Option (List Choice) := none
deriving Repr, DecidableEq

/-- The JavaScript expression error?.message: the message field when
the error field holds an object, undefined otherwise. -/
def errMessageField (e : Option ErrorField) : Option String :=
  match e with
  | some (.objVal m _) => m
  | _ => none

/-- The JavaScript expression typeof error: the error field itself when
it is a string, null otherwise. -/
def errAsString (e : Option ErrorField) : Option String :=
  match e with
  | some (.strVal s) => some s
  | _ => none

/-- The errMsg expression of callApi for a non-ok response:
error?.message, or-else error when it is a string, or-else the top
level message, or-else the fixed fallback text. -/
def extractErrMsg (rd : ResponseData) : String :=
  (jsOr (jsOr (jsOr (errMessageField rd.error) (errAsString rd.error)) rd.message)
    (some "API request failed")).getD ""

/-- The outcome of callApi after the HTTP exchange: either the uniform
pair of reply text and optional reasoning text, or a thrown error
message. -/
inductive ApiOutcome
  | success (finalText : String) (reasoningContent : Option String)
  | failure (errMsg : String)
deriving Repr, DecidableEq

/-- The ok flag of a fetch Response: status in the 2xx range. -/
def responseOk (status : Nat) : Bool :=
  decide (200 ≤ status ∧ status < 300)

/-- The pure part of callApi: classify a non-ok response through
extractErrMsg, then extract the reply text per provider shape, with the
fallbacks and truthiness tests of the source. -/
def callApiExtract (provider : String) (status : Nat) (rd : ResponseData) : ApiOutcome :=
  if !(responseOk status) then
    .failure (extractErrMsg rd)
  else if provider == "anthropic" then
    let finalText := (rd.content.bind List.head?).bind ContentItem.text
    if truthy finalText then .success (finalText.getD "") none
    else .failure "Could not extract text from Anthropic response"
  else
    match (rd.choices.bind List.head?).bind Choice.message with
    | none => .failure "No message found in API response"
    | some msg =>
      let finalText := jsOr msg.content msg.text
      let reasoningContent := jsOr msg.reasoning_content none
      let finalText2 :=
        if !(truthy finalText) && truthy reasoningContent then reasoningContent else finalText
      if truthy finalText2 then .success (finalText2.getD "") reasoningContent
      else .failure "Could not extract text from API response"

/-- The inbound body of POST /api/chat. The handler destructures only
provider, model and messages; a userApiKey the caller may have sent is
kept in the model to state that the handler ignores it. -/
structure ChatRequest where
  provider : String
  model : String
  messages : Option (List Message)
  userApiKey : Option String := none
deriving Repr, DecidableEq

/-- The POST /api/chat handler up to the outbound call: validate that
messages is a non-empty list, then build the provider config passing
null as the caller key, so the server key is always used. -/
def chatHandler (req : ChatRequest) (env : Env) : Except String ProviderConfig :=
  match req.messages with
  | none => .error "No messages provided"
  | some msgs =>
    if msgs.isEmpty then .error "No messages provided"
    else buildProviderConfig req.provider req.model msgs none env

/-- The draft character object of a draft request. -/
structure DraftChar where
  name : String
  desc : String
deriving Repr, DecidableEq

/-- The inbound body of POST /api/draft. -/
structure DraftRequest where
  provider : String
  model : String
  messages : Option (List Message)
  draftChar : Option DraftChar := none
  draftPrompt : Option String := none
  userApiKey : Option String := none
  activeCharName : Option String := none
deriving Repr, DecidableEq

/-- The draft system prompt template of POST /api/draft, with the name,
description, active-character and optional-guidance interpolations of
the source. -/
def draftSystemPrompt (draftName desc aiCharName : String) (draftPrompt : Option String) : String :=
  "You are a screenwriter\x27s assistant helping draft dialogue and action for a roleplay scene.\n\nYOUR TASK:\nWrite the next line(s) for the character \"" ++ draftName ++
  "\" only.\n\nCHARACTER PROFILE — " ++ draftName ++ ":\n" ++ desc ++
  "\n\nTHE SCENE SO FAR:\nBelow is the conversation transcript. " ++ aiCharName ++ " and " ++
  draftName ++ " are the two characters.\nRead it carefully to understand tone, tension, and pacing.\nYour job is to write what " ++
  draftName ++ " says or does NEXT — responding to " ++ aiCharName ++
  "\x27s most recent line.\n\nSTRICT RULES:\n- Write ONLY as " ++ draftName ++
  "\n- Do NOT write as " ++ aiCharName ++
  "\n- Do NOT repeat, echo, or extend " ++ aiCharName ++
  "\x27s last line\n- Do NOT include any preamble, explanation, reasoning, or meta-commentary\n- Do NOT think out loud — output ONLY " ++
  draftName ++
  "\x27s reply, nothing else\n- Start your output directly with " ++ draftName ++
  "\x27s words or action" ++
  (if truthy draftPrompt then "\n\nDIRECTION FOR THIS DRAFT:\n" ++ draftPrompt.getD "" else "")

/-- The transcript block of POST /api/draft: each message becomes a
speaker-labelled paragraph — assistant turns attributed to the active
character, every other role to the draft character — joined by blank
lines. -/
def transcript (messages : List Message) (aiCharName draftName : String) : String :=
  String.intercalate "\n\n"
    (messages.map (fun m =>
      (if m.role == "assistant" then aiCharName else draftName) ++ ":\n" ++ m.content))

/-- The single user message of the draft flow: the labelled transcript
wrapped with the scene header and the closing instruction. -/
def transcriptUserMsg (messages : List Message) (aiCharName draftName : String) : String :=
  "SCENE TRANSCRIPT:\n\n" ++ transcript messages aiCharName draftName ++ "\n\n---\n" ++
  "Now write " ++ draftName ++ "\x27s next reply. Output only " ++ draftName ++
  "\x27s response, nothing else."

/-- The JavaScript String.includes test on strings: the pattern occurs
as a contiguous substring. -/
def jsIncludes (s sub : String) : Bool :=
  decide (sub.toList <:+: s.toList)

/-- The thinking-suppression step of POST /api/draft: set
enable_thinking to false, and append the /nothink marker to the last
message of the body when that message has role user. -/
def suppressThinking (b : Body) : Body :=
  let b1 := { b with enable_thinking := some false }
  match b1.messages.getLast? with
  | some lastMsg =>
    if lastMsg.role == "user" then
      { b1 with messages :=
          b1.messages.dropLast ++ [{ lastMsg with content := lastMsg.content ++ "\n/nothink" }] }
    else b1
  | none => b1

/-- The key passed by POST /api/draft to the builder: null when the
caller key is absent or blank after trimming (server-key mode),
otherwise the trimmed caller key. -/
def draftKeyArg (userApiKey : Option String) : Option String :=
  if !(truthy userApiKey) || ((userApiKey.getD "").trim == "") then none
  else some ((userApiKey.getD "").trim)

/-- The aiCharName variable of POST /api/draft: the caller-supplied
active character name, or the fixed fallback when it is falsy. -/
def draftAiCharName (activeCharName : Option String) : String :=
  (jsOr activeCharName (some "the main character")).getD ""

/-- The two messages POST /api/draft submits to the builder: the system
prompt and the single user message carrying the transcript. -/
def draftBuildMessages (msgs : List Message) (dc : DraftChar)
    (draftPrompt activeCharName : Option String) : List Message :=
  [{ role := "system",
     content := draftSystemPrompt dc.name dc.desc (draftAiCharName activeCharName) draftPrompt },
   { role := "user",
     content := transcriptUserMsg msgs (draftAiCharName activeCharName) dc.name }]

/-- The post-build adjustments of POST /api/draft, in source order: the
anthropic max_tokens bump, then thinking suppression when the provider
is mancer or the lowercased model name contains glm. -/
def draftPost (provider model : String) (cfg : ProviderConfig) : ProviderConfig :=
  let body1 :=
    if provider == "anthropic" then { cfg.body with max_tokens := 2048 } else cfg.body
  let body2 :=
    if provider == "mancer" || jsIncludes model.toLower "glm" then suppressThinking body1
    else body1
  { cfg with body := body2 }

/-- The POST /api/draft handler up to the outbound call: validation,
key-mode selection, prompt and transcript construction, provider config
build, the anthropic max_tokens bump, and the mancer/glm thinking
suppression, in source order. -/
def draftHandler (req : DraftRequest) (env : Env) : Except String ProviderConfig :=
  match req.messages with
  | none => .error "No messages provided"
  | some msgs =>
    if msgs.isEmpty then .error "No messages provided"
    else
      match req.draftChar with
      | none => .error "No draft character provided"
      | some dc =>
        if dc.name == "" then .error "No draft character provided"
        else
          match buildProviderConfig req.provider req.model
              (draftBuildMessages msgs dc req.draftPrompt req.activeCharName)
              (draftKeyArg req.userApiKey) env with
          | .error e => .error e
          | .ok cfg => .ok (draftPost req.provider req.model cfg)

/-- The speaker attribution of the transcript, as the spec words it:
assistant turns belong to the active character, every other role to the
draft character. Stated separately to compare with the source composer. -/
def specSpeaker (aiCharName draftName : String) (m : Message) : String :=
  if m.role = "assistant" then aiCharName else draftName

/-- The server-side key the builder consults for a provider. -/
def envKey (provider : String) (env : Env) : Option String :=
  if provider == "mancer" then env.MANCER_API_KEY
  else if provider == "openrouter" then env.OPENROUTER_API_KEY
  else if provider == "openai" then env.OPENAI_API_KEY
  else if provider == "anthropic" then env.ANTHROPIC_API_KEY
  else none

/-- The environment variable name the configuration error of a provider
branch mentions. -/
def envKeyName (provider : String) : String :=
  if provider == "mancer" then "MANCER_API_KEY"
  else if provider == "openrouter" then "OPENROUTER_API_KEY"
  else if provider == "openai" then "OPENAI_API_KEY"
  else if provider == "anthropic" then "ANTHROPIC_API_KEY"
  else ""

/-- The authentication header a provider branch derives from the
resolved key: X-API-KEY for mancer, x-api-key for anthropic, a bearer
Authorization header for the OpenAI-compatible providers. -/
def authHeader (provider : String) (k : String) : String × String :=
  if provider == "mancer" then ("X-API-KEY", k)
  else if provider == "anthropic" then ("x-api-key", k)
  else ("Authorization", "Bearer " ++ k)

/-- A list element named by getLast? is a member of the list. -/
theorem mem_of_getLast_eq {α : Type} {l : List α} {a : α} (h : l.getLast? = some a) : a ∈ l := by
  obtain ⟨hne, rfl⟩ := List.mem_getLast?_eq_getLast (l := l) (x := a) h
  exact List.getLast_mem hne

/-- getLast? of a cons, expressed through getLast? of the tail. -/
theorem getLast?_cons_eq {α : Type} (a : α) (l : List α) :
    (a :: l).getLast? = some (l.getLast?.getD a) := by
  induction l generalizing a with
  | nil => simp
  | cons b t ih => rw [List.getLast?_cons_cons, ih b]; simp

/-- The merge loop never returns the empty list. -/
theorem sanLoop_ne_nil (cur : Message) (l : List Message) : sanLoop cur l ≠ [] := by
  induction l generalizing cur with
  | nil => simp [sanLoop]
  | cons m rest ih =>
    simp only [sanLoop]
    split
    · exact ih _
    · simp

/-- The first message the merge loop emits carries the role of the
message being accumulated. -/
theorem sanLoop_head_role (cur : Message) (l : List Message) :
    (sanLoop cur l).head?.map Message.role = some cur.role := by
  induction l generalizing cur with
  | nil => simp [sanLoop]
  | cons m rest ih =>
    simp only [sanLoop]
    split
    · exact ih _
    · simp

/-- The merge loop emits no two consecutive messages of equal role. -/
theorem sanLoop_chain (cur : Message) (l : List Message) :
    List.Chain' (fun a b : Message => a.role ≠ b.role) (sanLoop cur l) := by
  induction l generalizing cur with
  | nil => simp [sanLoop]
  | cons m rest ih =>
    simp only [sanLoop]
    split
    · exact ih _
    · rename_i hne
      rw [List.chain'_cons']
      refine ⟨?_, ih m⟩
      intro y hy
      have hhead := sanLoop_head_role m rest
      rw [Option.mem_def] at hy
      rw [hy] at hhead
      simp only [Option.map_some'] at hhead
      have hy_role : y.role = m.role := by injection hhead
      simp only [beq_iff_eq] at hne
      rw [hy_role]
      exact hne

/-- The role of the last message the merge loop emits is the role of
the last input message, or of the accumulated one when the input list
is empty. -/
theorem sanLoop_getLast_role (cur : Message) (l : List Message) :
    (sanLoop cur l).getLast?.map Message.role = some ((l.getLast?.getD cur).role) := by
  induction l generalizing cur with
  | nil => simp [sanLoop]
  | cons m rest ih =>
    simp only [sanLoop]
    split
    · rename_i heq
      simp only [beq_iff_eq] at heq
      rw [ih]
      cases rest with
      | nil => simpa using heq
      | cons b t => rw [List.getLast?_cons_cons]; rw [getLast?_cons_eq b t]; simp
    · obtain ⟨b, t, hbt⟩ : ∃ b t, sanLoop m rest = b :: t := by
        cases h : sanLoop m rest with
        | nil => exact absurd h (sanLoop_ne_nil m rest)
        | cons b t => exact ⟨b, t, rfl⟩
      rw [hbt, List.getLast?_cons_cons, ← hbt, ih]
      cases rest with
      | nil => simp
      | cons c t2 => rw [getLast?_cons_eq c t2]; rw [getLast?_cons_eq m (c :: t2), getLast?_cons_eq c t2]; simp

/-- Every role the merge loop emits is the role of the accumulated
message or of some input message. -/
theorem sanLoop_mem_role (cur : Message) (l : List Message) :
    ∀ x ∈ sanLoop cur l, x.role = cur.role ∨ ∃ y ∈ l, x.role = y.role := by
  induction l generalizing cur with
  | nil => simp [sanLoop]
  | cons m rest ih =>
    intro x hx
    simp only [sanLoop] at hx
    split at hx
    · rcases ih _ x hx with h | ⟨y, hy, hxy⟩
      · exact Or.inl h
      · exact Or.inr ⟨y, List.mem_cons_of_mem m hy, hxy⟩
    · rcases List.mem_cons.mp hx with rfl | hx'
      · exact Or.inl rfl
      · rcases ih m x hx' with h | ⟨y, hy, hxy⟩
        · exact Or.inr ⟨m, List.mem_cons_self m rest, h⟩
        · exact Or.inr ⟨y, List.mem_cons_of_mem m hy, hxy⟩

/-- The reversed marker append is the identity on a list without a
user-role message. -/
theorem appendNothinkRev_no_user (l : List Message) (h : ∀ m ∈ l, m.role ≠ "user") :
    appendNothinkRev l = l := by
  induction l with
  | nil => rfl
  | cons m rest ih =>
    have hm : m.role ≠ "user" := h m (List.mem_cons_self m rest)
    simp only [appendNothinkRev, beq_iff_eq, if_neg hm]
    rw [ih (fun x hx => h x (List.mem_cons_of_mem m hx))]

/-- The reversed marker append modifies exactly the first user-role
message of the list. -/
theorem appendNothinkRev_decomp (a b : List Message) (u : Message)
    (ha : ∀ m ∈ a, m.role ≠ "user") (hu : u.role = "user") :
    appendNothinkRev (a ++ u :: b) =
      a ++ { u with content := u.content ++ "\n/nothink" } :: b := by
  induction a with
  | nil => simp [appendNothinkRev, hu]
  | cons m rest ih =>
    have hm : m.role ≠ "user" := ha m (List.mem_cons_self m rest)
    simp only [List.cons_append, appendNothinkRev, beq_iff_eq, if_neg hm, List.append_eq]
    rw [ih (fun x hx => ha x (List.mem_cons_of_mem m hx))]

/-- The systemMsg fold yields the content of the last system-role
message, and the initial accumulator when there is none. -/
theorem foldl_system_eq (l : List Message) (init : String) :
    l.foldl (fun acc m => if m.role == "system" then m.content else acc) init =
      match (l.filter (fun m => m.role == "system")).getLast? with
      | some m => m.content
      | none => init := by
  induction l generalizing init with
  | nil => rfl
  | cons m rest ih =>
    by_cases hm : (m.role == "system") = true
    · simp only [List.foldl_cons, List.filter_cons, if_pos hm]
      rw [ih m.content, getLast?_cons_eq]
      cases h : (rest.filter (fun x => x.role == "system")).getLast? with
      | none => simp [h]
      | some x => simp [h]
    · simp only [List.foldl_cons, List.filter_cons, if_neg hm]
      exact ih init

/-- jsOr returns its left operand when that operand is truthy. -/
theorem jsOr_of_truthy (a b : Option String) (h : truthy a = true) : jsOr a b = a := by
  simp [jsOr, h]

/-- jsOr returns its right operand when the left one is falsy. -/
theorem jsOr_of_falsy (a b : Option String) (h : truthy a = false) : jsOr a b = b := by
  simp [jsOr, h]

/-- A truthy option is some of its default-read value. -/
theorem some_getD_of_truthy (a : Option String) (h : truthy a = true) : some (a.getD "") = a := by
  cases a <;> simp_all [truthy]

/-- C7: the transcript composer turns each message into a
speaker-labelled paragraph in message order, attributing assistant
turns to the active character and every other role to the draft
character, joining paragraphs with blank lines; on the two-message
example it yields the expected script block. -/
theorem transcript_composer_spec :
    (∀ (msgs : List Message) (aiCharName draftName : String),
        transcript msgs aiCharName draftName =
          String.intercalate "\n\n"
            (msgs.map (fun m => specSpeaker aiCharName draftName m ++ ":\n" ++ m.content))) ∧
    transcript [⟨"user", "Hi"⟩, ⟨"assistant", "Hello"⟩] "Victoria" "Sam"
      = "Sam:\nHi\n\nVictoria:\nHello" := by
  constructor
  · intro msgs ai dn
    simp [transcript, specSpeaker]
  · decide

/-- C1 counterexample: for a 429 and a 402 response whose body carries
only error.metadata.raw, the extractor produces one and the same
generic failure with the fixed fallback message — there is no
status-code classification and the metadata text is not consulted. -/
theorem nonOk_no_status_classification :
    callApiExtract "openai" 429 { error := some (.objVal none (some "rate limit details")) }
      = .failure "API request failed" ∧
    callApiExtract "openai" 402 { error := some (.objVal none (some "rate limit details")) }
      = .failure "API request failed" ∧
    callApiExtract "openai" 429 { error := some (.objVal none (some "rate limit details")) }
      = callApiExtract "openai" 402 { error := some (.objVal none (some "rate limit details")) } := by
  refine ⟨?_, ?_, ?_⟩ <;> decide

/-- C1 amended: for every non-2xx response the extractor fails with a
single generic error whose message is chosen in priority order from
error.message, error as a string, the top-level message field, and the
fixed fallback text; the status code plays no further part. -/
theorem nonOk_generic_message_priority (provider : String) (status : Nat) (rd : ResponseData)
    (h : responseOk status = false) :
    callApiExtract provider status rd = .failure (extractErrMsg rd) ∧
    (truthy (errMessageField rd.error) = true →
      some (extractErrMsg rd) = errMessageField rd.error) ∧
    (truthy (errMessageField rd.error) = false → truthy (errAsString rd.error) = true →
      some (extractErrMsg rd) = errAsString rd.error) ∧
    (truthy (errMessageField rd.error) = false → truthy (errAsString rd.error) = false →
      truthy rd.message = true → some (extractErrMsg rd) = rd.message) ∧
    (truthy (errMessageField rd.error) = false → truthy (errAsString rd.error) = false →
      truthy rd.message = false → extractErrMsg rd = "API request failed") := by
  refine ⟨by simp [callApiExtract, h], ?_, ?_, ?_, ?_⟩
  · intro h1
    rw [extractErrMsg, jsOr_of_truthy _ _ h1, jsOr_of_truthy _ _ h1, jsOr_of_truthy _ _ h1]
    exact some_getD_of_truthy _ h1
  · intro h1 h2
    rw [extractErrMsg, jsOr_of_falsy _ _ h1, jsOr_of_truthy _ _ h2, jsOr_of_truthy _ _ h2]
    exact some_getD_of_truthy _ h2
  · intro h1 h2 h3
    rw [extractErrMsg, jsOr_of_falsy _ _ h1, jsOr_of_falsy _ _ h2, jsOr_of_truthy _ _ h3]
    exact some_getD_of_truthy _ h3
  · intro h1 h2 h3
    rw [extractErrMsg, jsOr_of_falsy _ _ h1, jsOr_of_falsy _ _ h2, jsOr_of_falsy _ _ h3]
    rfl

/-- Witness for a concrete non-2xx response: status 500 with only a
top-level message field yields the generic failure carrying it. -/
theorem nonOk_generic_message_priority_witness :
    responseOk 500 = false ∧
    callApiExtract "openai" 500 { message := some "boom" }
      = .failure (extractErrMsg { message := some "boom" }) :=
  ⟨by decide, (nonOk_generic_message_priority "openai" 500 { message := some "boom" } (by decide)).1⟩

/-- Non-anthropic extraction fails when every reply-text candidate and
the reasoning field are falsy. -/
theorem callApiExtract_fail_nonAnthropic (provider : String) (status : Nat) (rd : ResponseData)
    (msg : RespMessage) (hp : (provider == "anthropic") = false) (hok : responseOk status = true)
    (hmsg : (rd.choices.bind List.head?).bind Choice.message = some msg)
    (hft : truthy (jsOr msg.content msg.text) = false)
    (hrcf : truthy msg.reasoning_content = false) :
    callApiExtract provider status rd = .failure "Could not extract text from API response" := by
  have hr2 : jsOr msg.reasoning_content none = none := jsOr_of_falsy _ _ hrcf
  simp only [callApiExtract, hok, Bool.not_true, Bool.false_eq_true, if_false, hp, hmsg]
  rw [hft, hr2]
  rw [if_neg (show ¬((!false && truthy (none : Option String)) = true) by simp [truthy])]
  rw [hft]
  simp

/-- C5: the extractor returns the uniform pair on the anthropic and
OpenAI example shapes; for any non-anthropic 2xx body whose message has
truthy reasoning text but no truthy reply text the reasoning text is
promoted to the reply, and with neither the extraction fails. -/
theorem extractor_success_shapes :
    callApiExtract "anthropic" 200 { content := some [{ text := some "hi" }] }
      = .success "hi" none ∧
    callApiExtract "openai" 200
        { choices := some
            [{ message := some { content := some "hi", reasoning_content := some "r" } }] }
      = .success "hi" (some "r") ∧
    (∀ (provider : String) (status : Nat) (rd : ResponseData) (msg : RespMessage) (rc : String),
      (provider == "anthropic") = false → responseOk status = true →
      (rd.choices.bind List.head?).bind Choice.message = some msg →
      truthy (jsOr msg.content msg.text) = false →
      msg.reasoning_content = some rc → rc ≠ "" →
      callApiExtract provider status rd = .success rc (some rc)) ∧
    (∀ (provider : String) (status : Nat) (rd : ResponseData) (msg : RespMessage),
      (provider == "anthropic") = false → responseOk status = true →
      (rd.choices.bind List.head?).bind Choice.message = some msg →
      truthy (jsOr msg.content msg.text) = false →
      truthy msg.reasoning_content = false →
      callApiExtract provider status rd
        = .failure "Could not extract text from API response") := by
  refine ⟨by decide, by decide, ?_, ?_⟩
  · intro provider status rd msg rc hp hok hmsg hft hrc hrcne
    have hrt : truthy msg.reasoning_content = true := by rw [hrc]; simp [truthy, hrcne]
    have hr2 : jsOr msg.reasoning_content none = some rc := by
      rw [jsOr_of_truthy _ _ hrt, hrc]
    simp only [callApiExtract, hok, Bool.not_true, Bool.false_eq_true, if_false, hp, hmsg]
    rw [hft, hr2]
    simp [truthy, hrcne]
  · intro provider status rd msg hp hok hmsg hft hrcf
    exact callApiExtract_fail_nonAnthropic provider status rd msg hp hok hmsg hft hrcf

/-- Witness for the conditional parts of the extractor success-shape
theorem, at a concrete reasoning-only body and a concrete empty body. -/
theorem extractor_success_shapes_witness :
    callApiExtract "openrouter" 200
        { choices := some [{ message := some { reasoning_content := some "r" } }] }
      = .success "r" (some "r") ∧
    callApiExtract "openrouter" 200 { choices := some [{ message := some {} }] }
      = .failure "Could not extract text from API response" :=
  ⟨extractor_success_shapes.2.2.1 "openrouter" 200
      { choices := some [{ message := some { reasoning_content := some "r" } }] }
      { reasoning_content := some "r" } "r" (by decide) (by decide) rfl (by decide) rfl
      (by decide),
   extractor_success_shapes.2.2.2 "openrouter" 200
      { choices := some [{ message := some {} }] } {} (by decide) (by decide) rfl (by decide)
      (by decide)⟩

/-- C10: the extractor tests the reply text by truthiness, not by field
presence — an empty-string content falls through to the text field,
then to the reasoning field, and fails when every candidate is falsy;
an anthropic body whose first content item has empty text also fails. -/
theorem extractor_truthiness :
    (∀ (provider : String) (status : Nat) (rd : ResponseData) (msg : RespMessage) (t : String),
      (provider == "anthropic") = false → responseOk status = true →
      (rd.choices.bind List.head?).bind Choice.message = some msg →
      msg.content = some "" → msg.text = some t → t ≠ "" →
      callApiExtract provider status rd = .success t (jsOr msg.reasoning_content none)) ∧
    (∀ (provider : String) (status : Nat) (rd : ResponseData) (msg : RespMessage) (rc : String),
      (provider == "anthropic") = false → responseOk status = true →
      (rd.choices.bind List.head?).bind Choice.message = some msg →
      msg.content = some "" → truthy msg.text = false →
      msg.reasoning_content = some rc → rc ≠ "" →
      callApiExtract provider status rd = .success rc (some rc)) ∧
    (∀ (provider : String) (status : Nat) (rd : ResponseData) (msg : RespMessage),
      (provider == "anthropic") = false → responseOk status = true →
      (rd.choices.bind List.head?).bind Choice.message = some msg →
      msg.content = some "" → truthy msg.text = false →
      truthy msg.reasoning_content = false →
      callApiExtract provider status rd
        = .failure "Could not extract text from API response") ∧
    (∀ (status : Nat) (rd : ResponseData),
      responseOk status = true →
      (rd.content.bind List.head?).bind ContentItem.text = some "" →
      callApiExtract "anthropic" status rd
        = .failure "Could not extract text from Anthropic response") := by
  refine ⟨?_, ?_, ?_, ?_⟩
  · intro provider status rd msg t hp hok hmsg hc ht htne
    simp [callApiExtract, hok, hp, hmsg, hc, ht, jsOr, truthy, htne]
  · intro provider status rd msg rc hp hok hmsg hc htf hrc hrcne
    have hft : truthy (jsOr msg.content msg.text) = false := by
      rw [hc, jsOr_of_falsy _ _ (by decide), htf]
    have hrt : truthy msg.reasoning_content = true := by rw [hrc]; simp [truthy, hrcne]
    have hr2 : jsOr msg.reasoning_content none = some rc := by
      rw [jsOr_of_truthy _ _ hrt, hrc]
    simp only [callApiExtract, hok, Bool.not_true, Bool.false_eq_true, if_false, hp, hmsg]
    rw [hft, hr2]
    simp [truthy, hrcne]
  · intro provider status rd msg hp hok hmsg hc htf hrcf
    have hft : truthy (jsOr msg.content msg.text) = false := by
      rw [hc, jsOr_of_falsy _ _ (by decide), htf]
    exact callApiExtract_fail_nonAnthropic provider status rd msg hp hok hmsg hft hrcf
  · intro status rd hok htext
    simp [callApiExtract, hok, htext, truthy]

/-- Witness for the truthiness theorem at concrete bodies: empty
content with a text fallback, empty content with only reasoning text,
all-empty fields, and an anthropic empty text. -/
theorem extractor_truthiness_witness :
    callApiExtract "openai" 200
        { choices := some [{ message := some { content := some "", text := some "t" } }] }
      = .success "t" (jsOr none none) ∧
    callApiExtract "openai" 200
        { choices := some
            [{ message := some { content := some "", reasoning_content := some "r" } }] }
      = .success "r" (some "r") ∧
    callApiExtract "openai" 200
        { choices := some [{ message := some { content := some "" } }] }
      = .failure "Could not extract text from API response" ∧
    callApiExtract "anthropic" 200 { content := some [{ text := some "" }] }
      = .failure "Could not extract text from Anthropic response" :=
  ⟨extractor_truthiness.1 "openai" 200
      { choices := some [{ message := some { content := some "", text := some "t" } }] }
      { content := some "", text := some "t" } "t" (by decide) (by decide) rfl rfl rfl
      (by decide),
   extractor_truthiness.2.1 "openai" 200
      { choices := some
          [{ message := some { content := some "", reasoning_content := some "r" } }] }
      { content := some "", reasoning_content := some "r" } "r" (by decide) (by decide) rfl rfl
      (by decide) rfl (by decide),
   extractor_truthiness.2.2.1 "openai" 200
      { choices := some [{ message := some { content := some "" } }] }
      { content := some "" } (by decide) (by decide) rfl rfl (by decide) (by decide),
   extractor_truthiness.2.2.2 200 { content := some [{ text := some "" }] } (by decide) rfl⟩

/-- Inversion of the mancer branch: a successful build means the
resolved key was truthy and the config is the fixed mancer record. -/
theorem buildProviderConfig_mancer_ok (model : String) (msgs : List Message)
    (ukey : Option String) (env : Env) (cfg : ProviderConfig)
    (hok : buildProviderConfig "mancer" model msgs ukey env = .ok cfg) :
    truthy (jsOr ukey env.MANCER_API_KEY) = true ∧
    cfg = { apiUrl := "https://neuro.mancer.tech/oai/v1/chat/completions",
            headers := [("Content-Type", "application/json"),
                        ("X-API-KEY", (jsOr ukey env.MANCER_API_KEY).getD "")],
            body := { model := model, messages := mancerMessages msgs,
                      temperature := some (7 / 10 : ℚ), max_tokens := 2048,
                      enable_thinking := some false, system := none } } := by
  rw [buildProviderConfig, if_pos (show ("mancer" == "mancer") = true from rfl)] at hok
  simp only [] at hok
  split at hok
  · rename_i ht
    refine ⟨ht, ?_⟩
    injection hok with h
    exact h.symm
  · exact absurd hok (by simp)

/-- The mancer message transform is the identity when no user-role
message exists. -/
theorem mancerMessages_no_user (msgs : List Message) (h : ∀ m ∈ msgs, m.role ≠ "user") :
    mancerMessages msgs = msgs := by
  unfold mancerMessages
  rw [appendNothinkRev_no_user _ (fun m hm => h m (List.mem_reverse.mp hm)),
    List.reverse_reverse]

/-- The mancer message transform appends the marker to exactly the last
user-role message, leaving every other message unchanged. -/
theorem mancerMessages_decomp (pre post : List Message) (u : Message)
    (hu : u.role = "user") (hpost : ∀ m ∈ post, m.role ≠ "user") :
    mancerMessages (pre ++ u :: post) =
      pre ++ { u with content := u.content ++ "\n/nothink" } :: post := by
  unfold mancerMessages
  rw [List.reverse_append, List.reverse_cons, List.append_assoc, List.singleton_append]
  rw [appendNothinkRev_decomp post.reverse pre.reverse u
    (fun m hm => hpost m (List.mem_reverse.mp hm)) hu]
  rw [List.reverse_append, List.reverse_cons, List.reverse_reverse, List.reverse_reverse,
    List.append_assoc, List.singleton_append]

/-- C4: with a usable key the mancer builder produces the fixed body
shape — temperature 0.7, max_tokens 2048, enable_thinking false — whose
message list has the literal marker appended to the content of the last
user-role message, every other message unchanged. -/
theorem mancer_body_shape (model : String) (msgs pre post : List Message) (u : Message)
    (ukey : Option String) (env : Env) (cfg : ProviderConfig)
    (hok : buildProviderConfig "mancer" model msgs ukey env = .ok cfg)
    (hdecomp : msgs = pre ++ u :: post) (hu : u.role = "user")
    (hpost : ∀ m ∈ post, m.role ≠ "user") :
    cfg.body = { model := model,
                 messages := pre ++ { u with content := u.content ++ "\n/nothink" } :: post,
                 temperature := some (7 / 10 : ℚ), max_tokens := 2048,
                 enable_thinking := some false, system := none } := by
  obtain ⟨-, rfl⟩ := buildProviderConfig_mancer_ok model msgs ukey env cfg hok
  subst hdecomp
  simp only [mancerMessages_decomp pre post u hu hpost]

/-- Witness for the mancer body shape at a one-message conversation of
a single user turn with a server-side key. -/
theorem mancer_body_shape_witness :
    buildProviderConfig "mancer" "m" [{ role := "user", content := "a" }] none
        ⟨some "k", none, none, none⟩
      = .ok { apiUrl := "https://neuro.mancer.tech/oai/v1/chat/completions",
              headers := [("Content-Type", "application/json"), ("X-API-KEY", "k")],
              body := { model := "m",
                        messages := [{ role := "user", content := "a\n/nothink" }],
                        temperature := some (7 / 10 : ℚ), max_tokens := 2048,
                        enable_thinking := some false, system := none } } ∧
    ({ apiUrl := "https://neuro.mancer.tech/oai/v1/chat/completions",
       headers := [("Content-Type", "application/json"), ("X-API-KEY", "k")],
       body := { model := "m",
                 messages := [{ role := "user", content := "a\n/nothink" }],
                 temperature := some (7 / 10 : ℚ), max_tokens := 2048,
                 enable_thinking := some false, system := none } } : ProviderConfig).body
      = { model := "m",
          messages := [{ role := "user", content := "a\n/nothink" }],
          temperature := some (7 / 10 : ℚ), max_tokens := 2048,
          enable_thinking := some false, system := none } :=
  ⟨rfl,
   mancer_body_shape "m" [{ role := "user", content := "a" }] [] []
     { role := "user", content := "a" } none ⟨some "k", none, none, none⟩ _ rfl rfl rfl
     (by simp)⟩

/-- Inversion of the openrouter branch of the builder. -/
theorem buildProviderConfig_openrouter_ok (model : String) (msgs : List Message)
    (ukey : Option String) (env : Env) (cfg : ProviderConfig)
    (hok : buildProviderConfig "openrouter" model msgs ukey env = .ok cfg) :
    truthy (jsOr ukey env.OPENROUTER_API_KEY) = true ∧
    cfg = { apiUrl := "https://openrouter.ai/api/v1/chat/completions",
            headers := [("Content-Type", "application/json"),
                        ("Authorization", "Bearer " ++ (jsOr ukey env.OPENROUTER_API_KEY).getD ""),
                        ("HTTP-Referer", "https://rp-companion.up.railway.app"),
                        ("X-Title", "RP Companion")],
            body := { model := model, messages := msgs, max_tokens := 1024 } } := by
  rw [buildProviderConfig, if_neg (show ¬(("openrouter" == "mancer") = true) by decide),
    if_pos (show ("openrouter" == "openrouter") = true from rfl)] at hok
  simp only [] at hok
  split at hok
  · rename_i ht
    refine ⟨ht, ?_⟩
    injection hok with h
    exact h.symm
  · exact absurd hok (by simp)

/-- Inversion of the openai branch of the builder. -/
theorem buildProviderConfig_openai_ok (model : String) (msgs : List Message)
    (ukey : Option String) (env : Env) (cfg : ProviderConfig)
    (hok : buildProviderConfig "openai" model msgs ukey env = .ok cfg) :
    truthy (jsOr ukey env.OPENAI_API_KEY) = true ∧
    cfg = { apiUrl := "https://api.openai.com/v1/chat/completions",
            headers := [("Content-Type", "application/json"),
                        ("Authorization", "Bearer " ++ (jsOr ukey env.OPENAI_API_KEY).getD "")],
            body := { model := model, messages := msgs, max_tokens := 1024 } } := by
  rw [buildProviderConfig, if_neg (show ¬(("openai" == "mancer") = true) by decide),
    if_neg (show ¬(("openai" == "openrouter") = true) by decide),
    if_pos (show ("openai" == "openai") = true from rfl)] at hok
  simp only [] at hok
  split at hok
  · rename_i ht
    refine ⟨ht, ?_⟩
    injection hok with h
    exact h.symm
  · exact absurd hok (by simp)

/-- Inversion of the anthropic branch of the builder. -/
theorem buildProviderConfig_anthropic_ok (model : String) (msgs : List Message)
    (ukey : Option String) (env : Env) (cfg : ProviderConfig)
    (hok : buildProviderConfig "anthropic" model msgs ukey env = .ok cfg) :
    truthy (jsOr ukey env.ANTHROPIC_API_KEY) = true ∧
    cfg = { apiUrl := "https://api.anthropic.com/v1/messages",
            headers := [("Content-Type", "application/json"),
                        ("x-api-key", (jsOr ukey env.ANTHROPIC_API_KEY).getD ""),
                        ("anthropic-version", "2023-06-01")],
            body := { model := model, messages := anthropicMessages msgs,
                      max_tokens := 1024, system := some (anthropicSystemMsg msgs) } } := by
  rw [buildProviderConfig, if_neg (show ¬(("anthropic" == "mancer") = true) by decide),
    if_neg (show ¬(("anthropic" == "openrouter") = true) by decide),
    if_neg (show ¬(("anthropic" == "openai") = true) by decide),
    if_pos (show ("anthropic" == "anthropic") = true from rfl)] at hok
  simp only [] at hok
  split at hok
  · rename_i ht
    refine ⟨ht, ?_⟩
    injection hok with h
    exact h.symm
  · exact absurd hok (by simp)

/-- Every message the sanitiser emits takes its role from some input
message. -/
theorem sanitise_mem_role (l : List Message) :
    ∀ x ∈ sanitise l, ∃ y ∈ l, x.role = y.role := by
  cases l with
  | nil => simp [sanitise]
  | cons m rest =>
    intro x hx
    have hx' : x ∈ sanLoop { role := m.role, content := m.content } rest := hx
    rcases sanLoop_mem_role _ rest x hx' with h | ⟨y, hy, hxy⟩
    · exact ⟨m, List.mem_cons_self m rest, h⟩
    · exact ⟨y, List.mem_cons_of_mem m hy, hxy⟩

/-- No message of the anthropic normalized list carries the system
role: the originals are filtered out and the synthetic additions are
user turns. -/
theorem anthropicMessages_no_system (msgs : List Message) :
    ∀ m ∈ anthropicMessages msgs, m.role ≠ "system" := by
  intro m hm
  rw [anthropicMessages] at hm
  by_cases he : (anthropicFixEnd (sanitise (anthropicApiMsgs msgs))).isEmpty
  · rw [anthropicFixEmpty, if_pos he] at hm
    simp only [List.mem_singleton] at hm
    rw [hm]
    decide
  · rw [anthropicFixEmpty, if_neg he] at hm
    have hsan : m ∈ sanitise (anthropicApiMsgs msgs) ∨ m.role = "user" := by
      rw [anthropicFixEnd] at hm
      cases hl : (sanitise (anthropicApiMsgs msgs)).getLast? with
      | none => rw [hl] at hm; exact Or.inl hm
      | some lastM =>
        rw [hl] at hm
        simp only [] at hm
        by_cases hr : (lastM.role == "assistant") = true
        · rw [if_pos hr] at hm
          rcases List.mem_append.mp hm with h | h
          · exact Or.inl h
          · simp only [List.mem_singleton] at h
            rw [h]
            exact Or.inr rfl
        · rw [if_neg hr] at hm
          exact Or.inl hm
    rcases hsan with h | h
    · obtain ⟨y, hy, hxy⟩ := sanitise_mem_role _ m h
      have hfil := List.mem_filter.mp hy
      rw [hxy]
      intro hcontra
      rw [hcontra] at hfil
      simp at hfil
    · rw [h]
      decide

/-- C9: when the input holds two or more system-role messages, the
anthropic builder stores exactly the content of the last one in the
separate system field, and no system-role message survives into the
built message list. -/
theorem anthropic_last_system_wins (model : String) (msgs : List Message)
    (ukey : Option String) (env : Env) (cfg : ProviderConfig) (u : Message)
    (hok : buildProviderConfig "anthropic" model msgs ukey env = .ok cfg)
    (_hcount : 2 ≤ (msgs.filter (fun m => m.role == "system")).length)
    (hlast : (msgs.filter (fun m => m.role == "system")).getLast? = some u) :
    cfg.body.system = some u.content ∧ ∀ m ∈ cfg.body.messages, m.role ≠ "system" := by
  obtain ⟨-, rfl⟩ := buildProviderConfig_anthropic_ok model msgs ukey env cfg hok
  constructor
  · show some (anthropicSystemMsg msgs) = some u.content
    rw [anthropicSystemMsg, foldl_system_eq, hlast]
  · exact anthropicMessages_no_system msgs

/-- Witness for the last-system-wins theorem on a conversation with two
system messages followed by a user message. -/
theorem anthropic_last_system_wins_witness :
    buildProviderConfig "anthropic" "m"
        [{ role := "system", content := "s1" }, { role := "system", content := "s2" },
         { role := "user", content := "u" }] none ⟨none, none, none, some "k"⟩
      = .ok { apiUrl := "https://api.anthropic.com/v1/messages",
              headers := [("Content-Type", "application/json"), ("x-api-key", "k"),
                          ("anthropic-version", "2023-06-01")],
              body := { model := "m", messages := [{ role := "user", content := "u" }],
                        max_tokens := 1024, system := some "s2" } } ∧
    ({ apiUrl := "https://api.anthropic.com/v1/messages",
       headers := [("Content-Type", "application/json"), ("x-api-key", "k"),
                   ("anthropic-version", "2023-06-01")],
       body := { model := "m", messages := [{ role := "user", content := "u" }],
                 max_tokens := 1024, system := some "s2" } } : ProviderConfig).body.system
        = some "s2" ∧
    ∀ m ∈ ({ apiUrl := "https://api.anthropic.com/v1/messages",
             headers := [("Content-Type", "application/json"), ("x-api-key", "k"),
                         ("anthropic-version", "2023-06-01")],
             body := { model := "m", messages := [{ role := "user", content := "u" }],
                       max_tokens := 1024, system := some "s2" } } : ProviderConfig).body.messages,
      m.role ≠ "system" := by
  refine ⟨rfl, ?_⟩
  exact anthropic_last_system_wins "m"
    [{ role := "system", content := "s1" }, { role := "system", content := "s2" },
     { role := "user", content := "u" }] none ⟨none, none, none, some "k"⟩ _
    { role := "system", content := "s2" } rfl (by decide) (by decide)

/-- The anthropic normalized message list alternates roles and ends on
a user turn, for any input whose roles are the three chat roles. -/
theorem anthropicMessages_spec (msgs : List Message)
    (hroles : ∀ m ∈ msgs, m.role = "system" ∨ m.role = "user" ∨ m.role = "assistant") :
    List.Chain' (fun a b : Message => a.role ≠ b.role) (anthropicMessages msgs) ∧
    (anthropicMessages msgs).getLast?.map Message.role = some "user" := by
  have hapi : ∀ m ∈ anthropicApiMsgs msgs, m.role = "user" ∨ m.role = "assistant" := by
    intro m hm
    have hf := List.mem_filter.mp hm
    rcases hroles m hf.1 with h | h | h
    · exfalso
      have h2 := hf.2
      rw [h] at h2
      simp at h2
    · exact Or.inl h
    · exact Or.inr h
  rw [anthropicMessages]
  cases hapic : anthropicApiMsgs msgs with
  | nil =>
    simp [sanitise, anthropicFixEnd, anthropicFixEmpty]
  | cons m rest =>
    rw [show sanitise (m :: rest) = sanLoop m rest from rfl]
    have hchain := sanLoop_chain m rest
    have hne := sanLoop_ne_nil m rest
    have hlast := sanLoop_getLast_role m rest
    have hlastIn_mem : (rest.getLast?.getD m) ∈ anthropicApiMsgs msgs := by
      rw [hapic]
      cases hr : rest.getLast? with
      | none => simp
      | some x =>
        simp only [Option.getD_some]
        exact List.mem_cons_of_mem m (mem_of_getLast_eq hr)
    have hrole2 : (rest.getLast?.getD m).role = "user" ∨ (rest.getLast?.getD m).role = "assistant" :=
      hapi _ hlastIn_mem
    obtain ⟨x, hx_eq, hx_role⟩ :
        ∃ x, (sanLoop m rest).getLast? = some x ∧ x.role = (rest.getLast?.getD m).role := by
      cases hgl : (sanLoop m rest).getLast? with
      | none => rw [hgl] at hlast; simp at hlast
      | some x =>
        rw [hgl] at hlast
        simp only [Option.map_some'] at hlast
        exact ⟨x, rfl, by injection hlast⟩
    rcases hrole2 with hu | ha
    · have hno : (x.role == "assistant") = false := by
        rw [hx_role, hu]
        decide
      rw [anthropicFixEnd, hx_eq]
      simp only []
      rw [if_neg (by rw [hno]; simp)]
      rw [anthropicFixEmpty, if_neg (by simp [List.isEmpty_iff, hne])]
      refine ⟨hchain, ?_⟩
      rw [hx_eq]
      simp only [Option.map_some']
      rw [hx_role, hu]
    · have hyes : (x.role == "assistant") = true := by
        rw [hx_role, ha]
        rfl
      rw [anthropicFixEnd, hx_eq]
      simp only []
      rw [if_pos hyes]
      rw [anthropicFixEmpty, if_neg (by simp)]
      constructor
      · rw [List.chain'_append]
        refine ⟨hchain, List.chain'_singleton _, ?_⟩
        intro a hmem b hmem2
        rw [Option.mem_def, hx_eq] at hmem
        injection hmem with hmem
        simp only [List.head?_cons, Option.mem_def, Option.some.injEq] at hmem2
        rw [← hmem, ← hmem2, hx_role, ha]
        decide
      · rw [List.getLast?_concat]
        rfl

/-- C2: for any message list over the three chat roles, the message
sequence placed in the anthropic request body after normalization has
no two consecutive entries of the same role and always ends on a user
turn. -/
theorem anthropic_alternation_last_user (model : String) (msgs : List Message)
    (ukey : Option String) (env : Env) (cfg : ProviderConfig)
    (hok : buildProviderConfig "anthropic" model msgs ukey env = .ok cfg)
    (hroles : ∀ m ∈ msgs, m.role = "system" ∨ m.role = "user" ∨ m.role = "assistant") :
    List.Chain' (fun a b : Message => a.role ≠ b.role) cfg.body.messages ∧
    cfg.body.messages.getLast?.map Message.role = some "user" := by
  obtain ⟨-, rfl⟩ := buildProviderConfig_anthropic_ok model msgs ukey env cfg hok
  exact anthropicMessages_spec msgs hroles

/-- Witness for the alternation theorem on a conversation ending with
two consecutive assistant turns after a system prompt. -/
theorem anthropic_alternation_last_user_witness :
    buildProviderConfig "anthropic" "m"
        [{ role := "system", content := "s" }, { role := "user", content := "u1" },
         { role := "assistant", content := "a1" }, { role := "assistant", content := "a2" }]
        none ⟨none, none, none, some "k"⟩
      = .ok { apiUrl := "https://api.anthropic.com/v1/messages",
              headers := [("Content-Type", "application/json"), ("x-api-key", "k"),
                          ("anthropic-version", "2023-06-01")],
              body := { model := "m",
                        messages := [{ role := "user", content := "u1" },
                                     { role := "assistant", content := "a1\n\na2" },
                                     { role := "user", content := "Please continue." }],
                        max_tokens := 1024, system := some "s" } } ∧
    List.Chain' (fun a b : Message => a.role ≠ b.role)
      [({ role := "user", content := "u1" } : Message),
       { role := "assistant", content := "a1\n\na2" },
       { role := "user", content := "Please continue." }] ∧
    ([({ role := "user", content := "u1" } : Message),
      { role := "assistant", content := "a1\n\na2" },
      { role := "user", content := "Please continue." }].getLast?.map Message.role)
      = some "user" := by
  refine ⟨rfl, ?_, ?_⟩
  · exact (anthropic_alternation_last_user "m"
      [{ role := "system", content := "s" }, { role := "user", content := "u1" },
       { role := "assistant", content := "a1" }, { role := "assistant", content := "a2" }]
      none ⟨none, none, none, some "k"⟩ _ rfl (by decide)).1
  · exact (anthropic_alternation_last_user "m"
      [{ role := "system", content := "s" }, { role := "user", content := "u1" },
       { role := "assistant", content := "a1" }, { role := "assistant", content := "a2" }]
      none ⟨none, none, none, some "k"⟩ _ rfl (by decide)).2

/-- Inversion of the whole draft handler: a successful run means
validation passed, the builder succeeded on the draft messages with the
draft key argument, and the result is the post-processed config. -/
theorem draftHandler_ok_inv (req : DraftRequest) (env : Env) (cfg : ProviderConfig)
    (hok : draftHandler req env = .ok cfg) :
    ∃ msgs dc cfg0, req.messages = some msgs ∧ msgs.isEmpty = false ∧
      req.draftChar = some dc ∧ (dc.name == "") = false ∧
      buildProviderConfig req.provider req.model
        (draftBuildMessages msgs dc req.draftPrompt req.activeCharName)
        (draftKeyArg req.userApiKey) env = .ok cfg0 ∧
      cfg = draftPost req.provider req.model cfg0 := by
  rw [draftHandler] at hok
  cases hm : req.messages with
  | none => rw [hm] at hok; exact absurd hok (by simp)
  | some msgs =>
    rw [hm] at hok
    simp only [] at hok
    by_cases he : msgs.isEmpty
    · rw [if_pos he] at hok; exact absurd hok (by simp)
    · rw [if_neg he] at hok
      cases hd : req.draftChar with
      | none => rw [hd] at hok; exact absurd hok (by simp)
      | some dc =>
        rw [hd] at hok
        simp only [] at hok
        by_cases hn : (dc.name == "") = true
        · rw [if_pos hn] at hok; exact absurd hok (by simp)
        · rw [if_neg hn] at hok
          cases hb : buildProviderConfig req.provider req.model
              (draftBuildMessages msgs dc req.draftPrompt req.activeCharName)
              (draftKeyArg req.userApiKey) env with
          | error e => rw [hb] at hok; exact absurd hok (by simp)
          | ok cfg0 =>
            rw [hb] at hok
            simp only [] at hok
            injection hok with h
            exact ⟨msgs, dc, cfg0, rfl, by simpa using he, rfl, by simpa using hn, hb, h.symm⟩

/-- C3: exactly one credential is selected per request: the chat
endpoint ignores any caller key and derives the auth header from the
server-configured key, the draft endpoint uses the trimmed caller key
when it is non-blank and otherwise the server key, and with neither key
the builder fails with an error naming the missing environment
variable. -/
theorem key_selection (provider : String)
    (hp : provider = "mancer" ∨ provider = "openrouter" ∨ provider = "openai" ∨
          provider = "anthropic") :
    (∀ (model : String) (msgs : Option (List Message)) (ukey : Option String) (env : Env),
       chatHandler { provider := provider, model := model, messages := msgs,
                     userApiKey := ukey } env
         = chatHandler { provider := provider, model := model, messages := msgs,
                         userApiKey := none } env) ∧
    (∀ (model : String) (msgs : List Message) (ukey : Option String) (env : Env)
       (cfg : ProviderConfig),
       msgs ≠ [] →
       chatHandler { provider := provider, model := model, messages := some msgs,
                     userApiKey := ukey } env = .ok cfg →
       authHeader provider ((envKey provider env).getD "") ∈ cfg.headers) ∧
    (∀ (req : DraftRequest) (env : Env) (cfg : ProviderConfig),
       req.provider = provider →
       truthy req.userApiKey = true → (req.userApiKey.getD "").trim ≠ "" →
       draftHandler req env = .ok cfg →
       authHeader provider ((req.userApiKey.getD "").trim) ∈ cfg.headers) ∧
    (∀ (req : DraftRequest) (env : Env) (cfg : ProviderConfig),
       req.provider = provider →
       (truthy req.userApiKey = false ∨ (req.userApiKey.getD "").trim = "") →
       draftHandler req env = .ok cfg →
       authHeader provider ((envKey provider env).getD "") ∈ cfg.headers) ∧
    (∀ (model : String) (msgs : List Message) (ukey : Option String) (env : Env),
       truthy ukey = false → truthy (envKey provider env) = false →
       ∃ e, buildProviderConfig provider model msgs ukey env = .error e ∧
            (envKeyName provider).toList <:+: e.toList) := by
  rcases hp with rfl | rfl | rfl | rfl
  · refine ⟨?_, ?_, ?_, ?_, ?_⟩
    · intro model msgs ukey env
      cases msgs <;> rfl
    · intro model msgs ukey env cfg hne hok
      rw [chatHandler] at hok
      simp only [] at hok
      rw [if_neg (by simp [List.isEmpty_iff, hne])] at hok
      obtain ⟨-, hcfg⟩ := buildProviderConfig_mancer_ok _ _ _ _ _ hok
      rw [hcfg]
      exact List.mem_cons_of_mem _ (List.mem_cons_self _ _)
    · intro req env cfg hpeq ht htr hok
      obtain ⟨msgs, dc, cfg0, hm, he, hd, hn, hb, hcfg⟩ := draftHandler_ok_inv req env cfg hok
      rw [hpeq] at hb
      have hkey : draftKeyArg req.userApiKey = some ((req.userApiKey.getD "").trim) := by
        rw [draftKeyArg, if_neg (by simp [ht, htr])]
      rw [hkey] at hb
      obtain ⟨-, hcfg0⟩ := buildProviderConfig_mancer_ok _ _ _ _ _ hb
      have htt : truthy (some ((req.userApiKey.getD "").trim)) = true := by
        simp [truthy, htr]
      have hmem : authHeader "mancer" ((req.userApiKey.getD "").trim) ∈ cfg0.headers := by
        rw [hcfg0, jsOr_of_truthy _ _ htt]
        exact List.mem_cons_of_mem _ (List.mem_cons_self _ _)
      rw [hcfg]
      exact hmem
    · intro req env cfg hpeq hcase hok
      obtain ⟨msgs, dc, cfg0, hm, he, hd, hn, hb, hcfg⟩ := draftHandler_ok_inv req env cfg hok
      rw [hpeq] at hb
      have hkey : draftKeyArg req.userApiKey = none := by
        rw [draftKeyArg, if_pos (by rcases hcase with h | h <;> simp [h])]
      rw [hkey] at hb
      obtain ⟨-, hcfg0⟩ := buildProviderConfig_mancer_ok _ _ _ _ _ hb
      have hmem : authHeader "mancer" ((envKey "mancer" env).getD "") ∈ cfg0.headers := by
        rw [hcfg0]
        exact List.mem_cons_of_mem _ (List.mem_cons_self _ _)
      rw [hcfg]
      exact hmem
    · intro model msgs ukey env hu he
      have hjs := jsOr_of_falsy ukey env.MANCER_API_KEY hu
      have he' : truthy env.MANCER_API_KEY = false := he
      refine ⟨"Mancer API Key not configured. Add MANCER_API_KEY to Railway env vars or provide your own key.", ?_, by decide⟩
      rw [buildProviderConfig, if_pos (show ("mancer" == "mancer") = true from rfl)]
      simp only []
      rw [if_neg (by rw [hjs, he']; simp)]
  · refine ⟨?_, ?_, ?_, ?_, ?_⟩
    · intro model msgs ukey env
      cases msgs <;> rfl
    · intro model msgs ukey env cfg hne hok
      rw [chatHandler] at hok
      simp only [] at hok
      rw [if_neg (by simp [List.isEmpty_iff, hne])] at hok
      obtain ⟨-, hcfg⟩ := buildProviderConfig_openrouter_ok _ _ _ _ _ hok
      rw [hcfg]
      exact List.mem_cons_of_mem _ (List.mem_cons_self _ _)
    · intro req env cfg hpeq ht htr hok
      obtain ⟨msgs, dc, cfg0, hm, he, hd, hn, hb, hcfg⟩ := draftHandler_ok_inv req env cfg hok
      rw [hpeq] at hb
      have hkey : draftKeyArg req.userApiKey = some ((req.userApiKey.getD "").trim) := by
        rw [draftKeyArg, if_neg (by simp [ht, htr])]
      rw [hkey] at hb
      obtain ⟨-, hcfg0⟩ := buildProviderConfig_openrouter_ok _ _ _ _ _ hb
      have htt : truthy (some ((req.userApiKey.getD "").trim)) = true := by
        simp [truthy, htr]
      have hmem : authHeader "openrouter" ((req.userApiKey.getD "").trim) ∈ cfg0.headers := by
        rw [hcfg0, jsOr_of_truthy _ _ htt]
        exact List.mem_cons_of_mem _ (List.mem_cons_self _ _)
      rw [hcfg]
      exact hmem
    · intro req env cfg hpeq hcase hok
      obtain ⟨msgs, dc, cfg0, hm, he, hd, hn, hb, hcfg⟩ := draftHandler_ok_inv req env cfg hok
      rw [hpeq] at hb
      have hkey : draftKeyArg req.userApiKey = none := by
        rw [draftKeyArg, if_pos (by rcases hcase with h | h <;> simp [h])]
      rw [hkey] at hb
      obtain ⟨-, hcfg0⟩ := buildProviderConfig_openrouter_ok _ _ _ _ _ hb
      have hmem : authHeader "openrouter" ((envKey "openrouter" env).getD "") ∈ cfg0.headers := by
        rw [hcfg0]
        exact List.mem_cons_of_mem _ (List.mem_cons_self _ _)
      rw [hcfg]
      exact hmem
    · intro model msgs ukey env hu he
      have hjs := jsOr_of_falsy ukey env.OPENROUTER_API_KEY hu
      have he' : truthy env.OPENROUTER_API_KEY = false := he
      refine ⟨"OpenRouter API Key not configured. Add OPENROUTER_API_KEY to Railway env vars or provide your own key.", ?_, by decide⟩
      rw [buildProviderConfig, if_neg (show ¬(("openrouter" == "mancer") = true) by decide),
      if_pos (show ("openrouter" == "openrouter") = true from rfl)]
      simp only []
      rw [if_neg (by rw [hjs, he']; simp)]
  · refine ⟨?_, ?_, ?_, ?_, ?_⟩
    · intro model msgs ukey env
      cases msgs <;> rfl
    · intro model msgs ukey env cfg hne hok
      rw [chatHandler] at hok
      simp only [] at hok
      rw [if_neg (by simp [List.isEmpty_iff, hne])] at hok
      obtain ⟨-, hcfg⟩ := buildProviderConfig_openai_ok _ _ _ _ _ hok
      rw [hcfg]
      exact List.mem_cons_of_mem _ (List.mem_cons_self _ _)
    · intro req env cfg hpeq ht htr hok
      obtain ⟨msgs, dc, cfg0, hm, he, hd, hn, hb, hcfg⟩ := draftHandler_ok_inv req env cfg hok
      rw [hpeq] at hb
      have hkey : draftKeyArg req.userApiKey = some ((req.userApiKey.getD "").trim) := by
        rw [draftKeyArg, if_neg (by simp [ht, htr])]
      rw [hkey] at hb
      obtain ⟨-, hcfg0⟩ := buildProviderConfig_openai_ok _ _ _ _ _ hb
      have htt : truthy (some ((req.userApiKey.getD "").trim)) = true := by
        simp [truthy, htr]
      have hmem : authHeader "openai" ((req.userApiKey.getD "").trim) ∈ cfg0.headers := by
        rw [hcfg0, jsOr_of_truthy _ _ htt]
        exact List.mem_cons_of_mem _ (List.mem_cons_self _ _)
      rw [hcfg]
      exact hmem
    · intro req env cfg hpeq hcase hok
      obtain ⟨msgs, dc, cfg0, hm, he, hd, hn, hb, hcfg⟩ := draftHandler_ok_inv req env cfg hok
      rw [hpeq] at hb
      have hkey : draftKeyArg req.userApiKey = none := by
        rw [draftKeyArg, if_pos (by rcases hcase with h | h <;> simp [h])]
      rw [hkey] at hb
      obtain ⟨-, hcfg0⟩ := buildProviderConfig_openai_ok _ _ _ _ _ hb
      have hmem : authHeader "openai" ((envKey "openai" env).getD "") ∈ cfg0.headers := by
        rw [hcfg0]
        exact List.mem_cons_of_mem _ (List.mem_cons_self _ _)
      rw [hcfg]
      exact hmem
    · intro model msgs ukey env hu he
      have hjs := jsOr_of_falsy ukey env.OPENAI_API_KEY hu
      have he' : truthy env.OPENAI_API_KEY = false := he
      refine ⟨"OpenAI API Key not configured. Add OPENAI_API_KEY to Railway env vars or provide your own key.", ?_, by decide⟩
      rw [buildProviderConfig, if_neg (show ¬(("openai" == "mancer") = true) by decide),
      if_neg (show ¬(("openai" == "openrouter") = true) by decide),
      if_pos (show ("openai" == "openai") = true from rfl)]
      simp only []
      rw [if_neg (by rw [hjs, he']; simp)]
  · refine ⟨?_, ?_, ?_, ?_, ?_⟩
    · intro model msgs ukey env
      cases msgs <;> rfl
    · intro model msgs ukey env cfg hne hok
      rw [chatHandler] at hok
      simp only [] at hok
      rw [if_neg (by simp [List.isEmpty_iff, hne])] at hok
      obtain ⟨-, hcfg⟩ := buildProviderConfig_anthropic_ok _ _ _ _ _ hok
      rw [hcfg]
      exact List.mem_cons_of_mem _ (List.mem_cons_self _ _)
    · intro req env cfg hpeq ht htr hok
      obtain ⟨msgs, dc, cfg0, hm, he, hd, hn, hb, hcfg⟩ := draftHandler_ok_inv req env cfg hok
      rw [hpeq] at hb
      have hkey : draftKeyArg req.userApiKey = some ((req.userApiKey.getD "").trim) := by
        rw [draftKeyArg, if_neg (by simp [ht, htr])]
      rw [hkey] at hb
      obtain ⟨-, hcfg0⟩ := buildProviderConfig_anthropic_ok _ _ _ _ _ hb
      have htt : truthy (some ((req.userApiKey.getD "").trim)) = true := by
        simp [truthy, htr]
      have hmem : authHeader "anthropic" ((req.userApiKey.getD "").trim) ∈ cfg0.headers := by
        rw [hcfg0, jsOr_of_truthy _ _ htt]
        exact List.mem_cons_of_mem _ (List.mem_cons_self _ _)
      rw [hcfg]
      exact hmem
    · intro req env cfg hpeq hcase hok
      obtain ⟨msgs, dc, cfg0, hm, he, hd, hn, hb, hcfg⟩ := draftHandler_ok_inv req env cfg hok
      rw [hpeq] at hb
      have hkey : draftKeyArg req.userApiKey = none := by
        rw [draftKeyArg, if_pos (by rcases hcase with h | h <;> simp [h])]
      rw [hkey] at hb
      obtain ⟨-, hcfg0⟩ := buildProviderConfig_anthropic_ok _ _ _ _ _ hb
      have hmem : authHeader "anthropic" ((envKey "anthropic" env).getD "") ∈ cfg0.headers := by
        rw [hcfg0]
        exact List.mem_cons_of_mem _ (List.mem_cons_self _ _)
      rw [hcfg]
      exact hmem
    · intro model msgs ukey env hu he
      have hjs := jsOr_of_falsy ukey env.ANTHROPIC_API_KEY hu
      have he' : truthy env.ANTHROPIC_API_KEY = false := he
      refine ⟨"Anthropic API Key not configured. Add ANTHROPIC_API_KEY to Railway env vars or provide your own key.", ?_, by decide⟩
      rw [buildProviderConfig, if_neg (show ¬(("anthropic" == "mancer") = true) by decide),
      if_neg (show ¬(("anthropic" == "openrouter") = true) by decide),
      if_neg (show ¬(("anthropic" == "openai") = true) by decide),
      if_pos (show ("anthropic" == "anthropic") = true from rfl)]
      simp only []
      rw [if_neg (by rw [hjs, he']; simp)]

/-- Witness for the key-selection theorem: the chat handler result does
not change when a caller key is added to the request, and with no key
anywhere the mancer builder fails with the message naming the missing
environment variable. -/
theorem key_selection_witness :
    chatHandler { provider := "mancer", model := "m",
                  messages := some [{ role := "user", content := "a" }],
                  userApiKey := some "CALLER" } ⟨some "k", none, none, none⟩
      = chatHandler { provider := "mancer", model := "m",
                      messages := some [{ role := "user", content := "a" }],
                      userApiKey := none } ⟨some "k", none, none, none⟩ ∧
    (∃ e, buildProviderConfig "mancer" "m" [{ role := "user", content := "a" }] none
            ⟨none, none, none, none⟩ = .error e ∧
          ("MANCER_API_KEY").toList <:+: e.toList) :=
  ⟨(key_selection "mancer" (Or.inl rfl)).1 "m" (some [{ role := "user", content := "a" }])
      (some "CALLER") ⟨some "k", none, none, none⟩,
   (key_selection "mancer" (Or.inl rfl)).2.2.2.2 "m" [{ role := "user", content := "a" }] none
      ⟨none, none, none, none⟩ rfl rfl⟩

/-- The literal marker is a suffix of any content it was appended to. -/
theorem marker_suffix (c : String) : "/nothink".toList <:+ (c ++ "\n/nothink").toList := by
  show "/nothink".data <:+ (c ++ "\n/nothink").data
  rw [String.data_append]
  exact List.IsSuffix.trans ⟨[Char.ofNat 10], rfl⟩ (List.suffix_append _ _)

/-- C6: in the draft flow, thinking suppression is applied exactly when
the provider is mancer or the lowercased model name contains glm: then
the outbound body carries enable_thinking false and its last message is
a user turn whose content ends with the literal marker; otherwise the
body carries no suppression flag and the last message content is the
untouched transcript user message. -/
theorem draft_thinking_suppression (req : DraftRequest) (env : Env) (cfg : ProviderConfig)
    (hp : req.provider = "mancer" ∨ req.provider = "openrouter" ∨ req.provider = "openai" ∨
          req.provider = "anthropic")
    (hok : draftHandler req env = .ok cfg) :
    ((req.provider = "mancer" ∨ jsIncludes req.model.toLower "glm" = true) →
       cfg.body.enable_thinking = some false ∧
       ∃ lm, cfg.body.messages.getLast? = some lm ∧ lm.role = "user" ∧
         "/nothink".toList <:+ lm.content.toList) ∧
    (¬(req.provider = "mancer" ∨ jsIncludes req.model.toLower "glm" = true) →
       cfg.body.enable_thinking = none ∧
       ∃ msgs dc, req.messages = some msgs ∧ req.draftChar = some dc ∧
         cfg.body.messages.getLast?.map Message.content =
           some (transcriptUserMsg msgs (draftAiCharName req.activeCharName) dc.name)) := by
  obtain ⟨msgs, dc, cfg0, hm, he, hd, hn, hb, hcfg⟩ := draftHandler_ok_inv req env cfg hok
  subst hcfg
  rcases hp with hpv | hpv | hpv | hpv
  · rw [hpv] at hb ⊢
    obtain ⟨-, hcfg0⟩ := buildProviderConfig_mancer_ok _ _ _ _ _ hb
    subst hcfg0
    constructor
    · intro _
      exact ⟨rfl,
        { role := "user",
          content := (transcriptUserMsg msgs (draftAiCharName req.activeCharName) dc.name
            ++ "\n/nothink") ++ "\n/nothink" },
        rfl, rfl,
        marker_suffix (transcriptUserMsg msgs (draftAiCharName req.activeCharName) dc.name
          ++ "\n/nothink")⟩
    · intro hnQ
      exact absurd (Or.inl rfl) hnQ
  · rw [hpv] at hb ⊢
    obtain ⟨-, hcfg0⟩ := buildProviderConfig_openrouter_ok _ _ _ _ _ hb
    subst hcfg0
    constructor
    · intro hQ
      have hglm : jsIncludes req.model.toLower "glm" = true := by
        rcases hQ with h | h
        · exact absurd h (by decide)
        · exact h
      rw [draftPost]
      simp only []
      rw [if_neg (show ¬(("openrouter" == "anthropic") = true) by decide)]
      rw [if_pos (show (("openrouter" == "mancer") || jsIncludes req.model.toLower "glm") = true
        by simp [hglm])]
      exact ⟨rfl,
        { role := "user",
          content := transcriptUserMsg msgs (draftAiCharName req.activeCharName) dc.name
            ++ "\n/nothink" },
        rfl, rfl,
        marker_suffix (transcriptUserMsg msgs (draftAiCharName req.activeCharName) dc.name)⟩
    · intro hnQ
      have hglm : jsIncludes req.model.toLower "glm" = false := by
        cases hgb : jsIncludes req.model.toLower "glm" with
        | false => rfl
        | true => exact absurd (Or.inr hgb) hnQ
      rw [draftPost]
      simp only []
      rw [if_neg (show ¬(("openrouter" == "anthropic") = true) by decide)]
      rw [if_neg (show ¬((("openrouter" == "mancer") || jsIncludes req.model.toLower "glm") = true)
        by simp [hglm])]
      exact ⟨rfl, msgs, dc, hm, hd, rfl⟩
  · rw [hpv] at hb ⊢
    obtain ⟨-, hcfg0⟩ := buildProviderConfig_openai_ok _ _ _ _ _ hb
    subst hcfg0
    constructor
    · intro hQ
      have hglm : jsIncludes req.model.toLower "glm" = true := by
        rcases hQ with h | h
        · exact absurd h (by decide)
        · exact h
      rw [draftPost]
      simp only []
      rw [if_neg (show ¬(("openai" == "anthropic") = true) by decide)]
      rw [if_pos (show (("openai" == "mancer") || jsIncludes req.model.toLower "glm") = true
        by simp [hglm])]
      exact ⟨rfl,
        { role := "user",
          content := transcriptUserMsg msgs (draftAiCharName req.activeCharName) dc.name
            ++ "\n/nothink" },
        rfl, rfl,
        marker_suffix (transcriptUserMsg msgs (draftAiCharName req.activeCharName) dc.name)⟩
    · intro hnQ
      have hglm : jsIncludes req.model.toLower "glm" = false := by
        cases hgb : jsIncludes req.model.toLower "glm" with
        | false => rfl
        | true => exact absurd (Or.inr hgb) hnQ
      rw [draftPost]
      simp only []
      rw [if_neg (show ¬(("openai" == "anthropic") = true) by decide)]
      rw [if_neg (show ¬((("openai" == "mancer") || jsIncludes req.model.toLower "glm") = true)
        by simp [hglm])]
      exact ⟨rfl, msgs, dc, hm, hd, rfl⟩
  · rw [hpv] at hb ⊢
    obtain ⟨-, hcfg0⟩ := buildProviderConfig_anthropic_ok _ _ _ _ _ hb
    subst hcfg0
    constructor
    · intro hQ
      have hglm : jsIncludes req.model.toLower "glm" = true := by
        rcases hQ with h | h
        · exact absurd h (by decide)
        · exact h
      rw [draftPost]
      simp only []
      rw [if_pos (show (("anthropic" == "anthropic") = true) from rfl)]
      rw [if_pos (show (("anthropic" == "mancer") || jsIncludes req.model.toLower "glm") = true
        by simp [hglm])]
      exact ⟨rfl,
        { role := "user",
          content := transcriptUserMsg msgs (draftAiCharName req.activeCharName) dc.name
            ++ "\n/nothink" },
        rfl, rfl,
        marker_suffix (transcriptUserMsg msgs (draftAiCharName req.activeCharName) dc.name)⟩
    · intro hnQ
      have hglm : jsIncludes req.model.toLower "glm" = false := by
        cases hgb : jsIncludes req.model.toLower "glm" with
        | false => rfl
        | true => exact absurd (Or.inr hgb) hnQ
      rw [draftPost]
      simp only []
      rw [if_pos (show (("anthropic" == "anthropic") = true) from rfl)]
      rw [if_neg (show ¬((("anthropic" == "mancer") || jsIncludes req.model.toLower "glm") = true)
        by simp [hglm])]
      exact ⟨rfl, msgs, dc, hm, hd, rfl⟩

/-- Witness for the suppression theorem: a non-mancer provider with a
GLM model gets the flag and the marker. -/
theorem draft_thinking_suppression_witness :
    ∃ cfg, draftHandler
        { provider := "openai", model := "GLM-4",
          messages := some [{ role := "user", content := "Hi" }],
          draftChar := some { name := "Sam", desc := "d" } }
        ⟨none, none, some "k", none⟩ = .ok cfg ∧
      cfg.body.enable_thinking = some false ∧
      ∃ lm, cfg.body.messages.getLast? = some lm ∧ lm.role = "user" ∧
        "/nothink".toList <:+ lm.content.toList := by
  obtain ⟨cfg, hok⟩ : ∃ c, draftHandler
      { provider := "openai", model := "GLM-4",
        messages := some [{ role := "user", content := "Hi" }],
        draftChar := some { name := "Sam", desc := "d" } }
      ⟨none, none, some "k", none⟩ = .ok c := ⟨_, rfl⟩
  have h := draft_thinking_suppression _ _ cfg (Or.inr (Or.inr (Or.inl rfl))) hok
  have hpos := h.1 (Or.inr (by rw [String.toLower, String.map_eq]; decide))
  exact ⟨cfg, hok, hpos.1, hpos.2⟩

end RPCompanion
